import Mathlib

/-!
# Verification of the DXF2GLB Blender import pipeline

Shallow embedding of `DXF2GLB/Scripts/blender_import.py`: the polyline data
model, the centering calculator (`calculate_center`), the layer grouper, the
merged-curve builder (`create_merged_curve_from_polylines`) and the
orchestrator (`import_and_process`) with its simplification-stage guards.

Coordinates are modelled as exact rationals extended with the IEEE special
values `inf`, `-inf` and `nan`, because `calculate_center` initialises its
running minima/maxima to float("inf") / float("-inf") and, on an input
with zero points, computes `(inf + -inf) / 2 = nan`.  Input points themselves
are finite (they come from JSON numbers), so only the accumulators and
results carry special values.

Host-application mesh operators (remove-doubles, limited dissolve, the
decimate modifier, curve-to-mesh conversion) are external to the repository;
the embedding takes them as opaque function parameters and models exactly
the guard logic the script wraps around them.
-/

namespace DXF2GLB

/-- Extended coordinate value: a finite rational or an IEEE special value. -/
inductive F where
  | nan : F
  | ninf : F
  | inf : F
  | fin : ℚ → F
deriving DecidableEq, Repr

namespace F

/-- Python `<` on floats: comparisons against `nan` are `False`. -/
def lt : F → F → Bool
  | nan, _ => false
  | _, nan => false
  | ninf, ninf => false
  | ninf, _ => true
  | _, ninf => false
  | inf, _ => false
  | fin _, inf => true
  | fin a, fin b => decide (a < b)

/-- Python `min(a, b)`: returns `b` exactly when `b < a`. -/
def fmin (a b : F) : F := if lt b a then b else a

/-- Python `max(a, b)`: returns `b` exactly when `a < b`. -/
def fmax (a b : F) : F := if lt a b then b else a

/-- IEEE addition on extended values. -/
def add : F → F → F
  | nan, _ => nan
  | _, nan => nan
  | inf, ninf => nan
  | ninf, inf => nan
  | inf, _ => inf
  | _, inf => inf
  | ninf, _ => ninf
  | _, ninf => ninf
  | fin a, fin b => fin (a + b)

/-- IEEE subtraction on extended values. -/
def sub : F → F → F
  | nan, _ => nan
  | _, nan => nan
  | inf, inf => nan
  | ninf, ninf => nan
  | inf, _ => inf
  | ninf, _ => ninf
  | _, inf => ninf
  | _, ninf => inf
  | fin a, fin b => fin (a - b)

/-- Division by two (the `/ 2` in the bounding-box midpoint). -/
def half : F → F
  | nan => nan
  | inf => inf
  | ninf => ninf
  | fin q => fin (q / 2)

/-- Multiplication by a finite scalar (the `* SCALE` in the curve builder). -/
def mulq (a : F) (s : ℚ) : F :=
  match a with
  | nan => nan
  | fin q => fin (q * s)
  | inf => if 0 < s then inf else if s < 0 then ninf else nan
  | ninf => if 0 < s then ninf else if s < 0 then inf else nan

@[simp] theorem fmin_fin_fin (a b : ℚ) : fmin (fin a) (fin b) = fin (min a b) := by
  by_cases h : b < a
  · simp [fmin, lt, h, min_eq_right h.le]
  · simp [fmin, lt, h, min_eq_left (le_of_not_lt h)]

@[simp] theorem fmax_fin_fin (a b : ℚ) : fmax (fin a) (fin b) = fin (max a b) := by
  by_cases h : a < b
  · simp [fmax, lt, h, max_eq_right h.le]
  · simp [fmax, lt, h, max_eq_left (le_of_not_lt h)]

@[simp] theorem fmin_inf_fin (a : ℚ) : fmin inf (fin a) = fin a := by
  simp [fmin, lt]

@[simp] theorem fmax_ninf_fin (a : ℚ) : fmax ninf (fin a) = fin a := by
  simp [fmax, lt]

@[simp] theorem add_fin_fin (a b : ℚ) : add (fin a) (fin b) = fin (a + b) := rfl

@[simp] theorem sub_fin_fin (a b : ℚ) : sub (fin a) (fin b) = fin (a - b) := rfl

@[simp] theorem mulq_fin (a s : ℚ) : mulq (fin a) s = fin (a * s) := rfl

@[simp] theorem half_fin (a : ℚ) : half (fin a) = fin (a / 2) := rfl

end F

/-- A 3D point with finite (JSON-number) coordinates. -/
abbrev P3 : Type := ℚ × ℚ × ℚ

/-- A 3D value that may carry IEEE special coordinates. -/
abbrev F3 : Type := F × F × F

/-- One entry of the input `polylines` array: a point list (`points`, default
`[]`), a `closed` flag (default `False`) and an optional `layer` tag. -/
structure Polyline where
  points : List P3
  closed : Bool
  layer : Option String
deriving DecidableEq, Repr

/-- The layer accessor with its default: pl.get("layer", "Default"). -/
def layerTag (pl : Polyline) : String := pl.layer.getD "Default"

/-! ## Centering calculator (`calculate_center`, lines 93–118)

The running state of the nested sampling loop: six extrema accumulators and
the global point counter. -/

structure CState where
  minx : F
  miny : F
  minz : F
  maxx : F
  maxy : F
  maxz : F
  count : ℕ
deriving DecidableEq, Repr

/-- Initial state: minima at `+inf`, maxima at `-inf`, counter zero. -/
def initCState : CState :=
  { minx := F.inf, miny := F.inf, minz := F.inf
    maxx := F.ninf, maxy := F.ninf, maxz := F.ninf
    count := 0 }

/-- One iteration of the inner loop body: fold the point into all six
extrema and bump the counter. -/
def stepP (s : CState) (p : P3) : CState :=
  { minx := F.fmin s.minx (F.fin p.1)
    miny := F.fmin s.miny (F.fin p.2.1)
    minz := F.fmin s.minz (F.fin p.2.2)
    maxx := F.fmax s.maxx (F.fin p.1)
    maxy := F.fmax s.maxy (F.fin p.2.1)
    maxz := F.fmax s.maxz (F.fin p.2.2)
    count := s.count + 1 }

/-- Inner loop over one polyline's points, with the
`if count > 100000: break` after each processed point. -/
def innerLoop (s : CState) : List P3 → CState
  | [] => s
  | p :: ps =>
    let s' := stepP s p
    if s'.count > 100000 then s' else innerLoop s' ps

/-- Outer loop over the polylines, with the matching
`if count > 100000: break` after each polyline. -/
def outerLoop (s : CState) : List Polyline → CState
  | [] => s
  | pl :: pls =>
    let s' := innerLoop s pl.points
    if s'.count > 100000 then s' else outerLoop s' pls

/-- The function `calculate_center`: run the sampling loops from the initial
state and return the per-axis bounding-box midpoints. -/
def calculate_center (polylines : List Polyline) : F3 :=
  let s := outerLoop initCState polylines
  (F.half (F.add s.minx s.maxx),
   F.half (F.add s.miny s.maxy),
   F.half (F.add s.minz s.maxz))

/-! ### Characterisation of the sampling loop

The loop is a left fold of `stepP` over a prefix of the flattened point
sequence; the break fires only after the point that takes the counter past
100000 has been folded in, so the prefix has length `100001`, not `100000`. -/

/-- All points of the set, polylines in input order, points in order. -/
def flatPoints (polylines : List Polyline) : List P3 :=
  polylines.flatMap Polyline.points

theorem foldl_stepP_count (l : List P3) (s : CState) :
    (List.foldl stepP s l).count = s.count + l.length := by
  induction l generalizing s with
  | nil => simp
  | cons p ps ih => simp [ih, stepP]; omega

theorem innerLoop_eq_foldl (ps : List P3) (s : CState) (h : s.count ≤ 100000) :
    innerLoop s ps = List.foldl stepP s (ps.take (100001 - s.count)) := by
  induction ps generalizing s with
  | nil => simp [innerLoop]
  | cons p ps ih =>
    have hcount : (stepP s p).count = s.count + 1 := rfl
    by_cases hb : (stepP s p).count > 100000
    · have hs : s.count = 100000 := by omega
      have : 100001 - s.count = 1 := by omega
      simp [innerLoop, hb, this]
    · have hle : (stepP s p).count ≤ 100000 := by omega
      have htake : (p :: ps).take (100001 - s.count)
          = p :: ps.take (100001 - (s.count + 1)) := by
        have h1 : 100001 - s.count = (100001 - (s.count + 1)) + 1 := by omega
        simp [h1]
      rw [innerLoop, htake]
      simp only [hb, if_false, List.foldl_cons]
      rw [ih (stepP s p) hle, hcount]

theorem outerLoop_eq_foldl (pls : List Polyline) (s : CState) (h : s.count ≤ 100000) :
    outerLoop s pls = List.foldl stepP s ((flatPoints pls).take (100001 - s.count)) := by
  induction pls generalizing s with
  | nil => simp [outerLoop, flatPoints]
  | cons pl pls ih =>
    rw [outerLoop, innerLoop_eq_foldl pl.points s h]
    set k := 100001 - s.count with hk
    have hsk : s.count + k = 100001 := by omega
    have hflat : flatPoints (pl :: pls) = pl.points ++ flatPoints pls := by
      simp [flatPoints]
    have hcnt := foldl_stepP_count (pl.points.take k) s
    have hlen : (pl.points.take k).length = min k pl.points.length :=
      List.length_take _ _
    by_cases hb : (List.foldl stepP s (pl.points.take k)).count > 100000
    · have hklen : k ≤ pl.points.length := by omega
      simp only [hb, if_true]
      rw [hflat, List.take_append_of_le_length hklen]
    · have hlt : pl.points.length < k := by omega
      have htk : pl.points.take k = pl.points := List.take_of_length_le hlt.le
      rw [htk] at hb hcnt ⊢
      have hle2 : (List.foldl stepP s pl.points).count ≤ 100000 := by omega
      simp only [hb, if_false]
      rw [ih _ hle2, hflat]
      have harith : 100001 - (List.foldl stepP s pl.points).count
          = k - pl.points.length := by omega
      rw [harith]
      have hsplit : (pl.points ++ flatPoints pls).take k
          = pl.points ++ (flatPoints pls).take (k - pl.points.length) := by
        rw [List.take_append_eq_append_take, List.take_of_length_le hlt.le]
      rw [hsplit, List.foldl_append]

/-- The six extrema of a fold of `stepP` are independent per-axis folds. -/
theorem foldl_stepP_eq (l : List P3) (s : CState) :
    List.foldl stepP s l =
      { minx := List.foldl (fun a p => F.fmin a (F.fin p.1)) s.minx l
        miny := List.foldl (fun a p => F.fmin a (F.fin p.2.1)) s.miny l
        minz := List.foldl (fun a p => F.fmin a (F.fin p.2.2)) s.minz l
        maxx := List.foldl (fun a p => F.fmax a (F.fin p.1)) s.maxx l
        maxy := List.foldl (fun a p => F.fmax a (F.fin p.2.1)) s.maxy l
        maxz := List.foldl (fun a p => F.fmax a (F.fin p.2.2)) s.maxz l
        count := s.count + l.length } := by
  induction l generalizing s with
  | nil => simp
  | cons p ps ih =>
    rw [List.foldl_cons, ih]
    simp [stepP]
    omega

/-- Per-axis minima of a list of points, starting from `+inf`. -/
def bboxMin (ps : List P3) : F3 :=
  (List.foldl (fun a p => F.fmin a (F.fin p.1)) F.inf ps,
   List.foldl (fun a p => F.fmin a (F.fin p.2.1)) F.inf ps,
   List.foldl (fun a p => F.fmin a (F.fin p.2.2)) F.inf ps)

/-- Per-axis maxima of a list of points, starting from `-inf`. -/
def bboxMax (ps : List P3) : F3 :=
  (List.foldl (fun a p => F.fmax a (F.fin p.1)) F.ninf ps,
   List.foldl (fun a p => F.fmax a (F.fin p.2.1)) F.ninf ps,
   List.foldl (fun a p => F.fmax a (F.fin p.2.2)) F.ninf ps)

/-- Bounding-box midpoint of a finite list of points, the specification shape
of `calculate_center`'s result on a given sample. -/
def bboxMid (ps : List P3) : F3 :=
  (F.half (F.add (bboxMin ps).1 (bboxMax ps).1),
   F.half (F.add (bboxMin ps).2.1 (bboxMax ps).2.1),
   F.half (F.add (bboxMin ps).2.2 (bboxMax ps).2.2))

/-- Midpoint of the bounding box of the first `cap` points in iteration
order; `specCenter 100000` is the sample the specification describes. -/
def specCenter (cap : ℕ) (polylines : List Polyline) : F3 :=
  bboxMid ((flatPoints polylines).take cap)

/-- The function `calculate_center` is the bounding-box midpoint of the first 100001
points in iteration order. -/
theorem calculate_center_eq (polylines : List Polyline) :
    calculate_center polylines = specCenter 100001 polylines := by
  unfold calculate_center specCenter bboxMid bboxMin bboxMax
  rw [outerLoop_eq_foldl polylines initCState (by simp [initCState])]
  rw [foldl_stepP_eq]
  simp [initCState]

/-! ### Fold lemmas for concrete and bounded evaluation -/

theorem fmin_absorb (a b : F) : F.fmin (F.fmin a b) b = F.fmin a b := by
  unfold F.fmin
  by_cases h : F.lt b a <;> simp [h]

theorem fmax_absorb (a b : F) : F.fmax (F.fmax a b) b = F.fmax a b := by
  unfold F.fmax
  by_cases h : F.lt a b <;> simp [h]

theorem foldl_replicate_absorb (g : F → P3 → F) (p : P3)
    (habs : ∀ a, g (g a p) p = g a p) :
    ∀ (n : ℕ) (a : F), n ≠ 0 → List.foldl g a (List.replicate n p) = g a p := by
  intro n
  induction n with
  | zero => intro a h; omega
  | succ n ih =>
    intro a _
    rw [List.replicate_succ, List.foldl_cons]
    rcases Nat.eq_zero_or_pos n with hn | hn
    · subst hn; simp
    · rw [ih (g a p) (by omega), habs]

theorem fold_fmin_fin (l : List ℚ) :
    ∀ x : ℚ, List.foldl (fun a q => F.fmin a (F.fin q)) (F.fin x) l
      = F.fin (List.foldl min x l) := by
  induction l with
  | nil => intro x; rfl
  | cons q l ih => intro x; rw [List.foldl_cons, F.fmin_fin_fin, ih, List.foldl_cons]

theorem fold_fmax_fin (l : List ℚ) :
    ∀ x : ℚ, List.foldl (fun a q => F.fmax a (F.fin q)) (F.fin x) l
      = F.fin (List.foldl max x l) := by
  induction l with
  | nil => intro x; rfl
  | cons q l ih => intro x; rw [List.foldl_cons, F.fmax_fin_fin, ih, List.foldl_cons]

theorem foldl_min_le (l : List ℚ) : ∀ x : ℚ, List.foldl min x l ≤ x := by
  induction l with
  | nil => intro x; exact le_refl x
  | cons q l ih => intro x; exact le_trans (ih (min x q)) (min_le_left x q)

theorem le_foldl_max (l : List ℚ) : ∀ x : ℚ, x ≤ List.foldl max x l := by
  induction l with
  | nil => intro x; exact le_refl x
  | cons q l ih => intro x; exact le_trans (le_max_left x q) (ih (max x q))

/-- On a non-empty axis-value list the extremum folds land on finite values
with `min ≤ max`. -/
theorem bbox_axis_bounds (l : List ℚ) (hl : l ≠ []) :
    ∃ m M : ℚ,
      List.foldl (fun a q => F.fmin a (F.fin q)) F.inf l = F.fin m ∧
      List.foldl (fun a q => F.fmax a (F.fin q)) F.ninf l = F.fin M ∧ m ≤ M := by
  cases l with
  | nil => exact absurd rfl hl
  | cons x rest =>
    refine ⟨List.foldl min x rest, List.foldl max x rest, ?_, ?_, ?_⟩
    · rw [List.foldl_cons, F.fmin_inf_fin, fold_fmin_fin]
    · rw [List.foldl_cons, F.fmax_ninf_fin, fold_fmax_fin]
    · exact le_trans (foldl_min_le rest x) (le_foldl_max rest x)

theorem fold_fmin_fin_proj (f : P3 → ℚ) (l : List P3) :
    ∀ x : ℚ, List.foldl (fun a p => F.fmin a (F.fin (f p))) (F.fin x) l
      = F.fin (List.foldl (fun a p => min a (f p)) x l) := by
  induction l with
  | nil => intro x; rfl
  | cons q l ih => intro x; rw [List.foldl_cons, F.fmin_fin_fin, ih, List.foldl_cons]

theorem fold_fmax_fin_proj (f : P3 → ℚ) (l : List P3) :
    ∀ x : ℚ, List.foldl (fun a p => F.fmax a (F.fin (f p))) (F.fin x) l
      = F.fin (List.foldl (fun a p => max a (f p)) x l) := by
  induction l with
  | nil => intro x; rfl
  | cons q l ih => intro x; rw [List.foldl_cons, F.fmax_fin_fin, ih, List.foldl_cons]

theorem foldl_min_le_proj (f : P3 → ℚ) (l : List P3) :
    ∀ x : ℚ, List.foldl (fun a p => min a (f p)) x l ≤ x := by
  induction l with
  | nil => intro x; exact le_refl x
  | cons q l ih => intro x; exact le_trans (ih (min x (f q))) (min_le_left x (f q))

theorem le_foldl_max_proj (f : P3 → ℚ) (l : List P3) :
    ∀ x : ℚ, x ≤ List.foldl (fun a p => max a (f p)) x l := by
  induction l with
  | nil => intro x; exact le_refl x
  | cons q l ih => intro x; exact le_trans (le_max_left x (f q)) (ih (max x (f q)))

/-- Non-empty point lists give finite per-axis extrema with `min ≤ max`. -/
theorem bbox_axis_bounds_proj (f : P3 → ℚ) (ps : List P3) (hps : ps ≠ []) :
    ∃ m M : ℚ,
      List.foldl (fun a p => F.fmin a (F.fin (f p))) F.inf ps = F.fin m ∧
      List.foldl (fun a p => F.fmax a (F.fin (f p))) F.ninf ps = F.fin M ∧ m ≤ M := by
  cases ps with
  | nil => exact absurd rfl hps
  | cons x rest =>
    refine ⟨List.foldl (fun a p => min a (f p)) (f x) rest,
            List.foldl (fun a p => max a (f p)) (f x) rest, ?_, ?_, ?_⟩
    · rw [List.foldl_cons, F.fmin_inf_fin, fold_fmin_fin_proj]
    · rw [List.foldl_cons, F.fmax_ninf_fin, fold_fmax_fin_proj]
    · exact le_trans (foldl_min_le_proj f rest (f x)) (le_foldl_max_proj f rest (f x))

theorem bbox_bounds_x (ps : List P3) (hps : ps ≠ []) :
    ∃ m M : ℚ, (bboxMin ps).1 = F.fin m ∧ (bboxMax ps).1 = F.fin M ∧ m ≤ M :=
  bbox_axis_bounds_proj (fun p => p.1) ps hps

theorem bbox_bounds_y (ps : List P3) (hps : ps ≠ []) :
    ∃ m M : ℚ, (bboxMin ps).2.1 = F.fin m ∧ (bboxMax ps).2.1 = F.fin M ∧ m ≤ M :=
  bbox_axis_bounds_proj (fun p => p.2.1) ps hps

theorem bbox_bounds_z (ps : List P3) (hps : ps ≠ []) :
    ∃ m M : ℚ, (bboxMin ps).2.2 = F.fin m ∧ (bboxMax ps).2.2 = F.fin M ∧ m ≤ M :=
  bbox_axis_bounds_proj (fun p => p.2.2) ps hps

/-! ### Concrete evaluation on a 100001-point polyline -/

/-- 100000 points at the origin followed by one point at `x = 1`.  The
specification's 100000-point sample misses the last point; the code's loop
still folds it in. -/
def bigPolyline : Polyline :=
  { points := List.replicate 100000 ((0 : ℚ), (0 : ℚ), (0 : ℚ)) ++ [((1 : ℚ), (0 : ℚ), (0 : ℚ))]
    closed := false
    layer := none }

theorem flatPoints_big :
    flatPoints [bigPolyline]
      = List.replicate 100000 ((0 : ℚ), (0 : ℚ), (0 : ℚ)) ++ [((1 : ℚ), (0 : ℚ), (0 : ℚ))] := by
  unfold flatPoints
  rw [List.flatMap_cons, List.flatMap_nil, List.append_nil]
  rfl

theorem bigPoints_length :
    (List.replicate 100000 ((0 : ℚ), (0 : ℚ), (0 : ℚ))
      ++ [((1 : ℚ), (0 : ℚ), (0 : ℚ))]).length = 100001 := by
  rw [List.length_append, List.length_replicate]
  rfl

theorem spec100001_big :
    specCenter 100001 [bigPolyline] = (F.fin (1 / 2), F.fin 0, F.fin 0) := by
  unfold specCenter
  rw [flatPoints_big, List.take_of_length_le (le_of_eq bigPoints_length)]
  unfold bboxMid bboxMin bboxMax
  rw [List.foldl_append, List.foldl_append, List.foldl_append, List.foldl_append,
      List.foldl_append, List.foldl_append]
  rw [foldl_replicate_absorb (fun a p => F.fmin a (F.fin p.1))
        ((0 : ℚ), (0 : ℚ), (0 : ℚ)) (fun a => fmin_absorb a _) 100000 F.inf (by norm_num),
      foldl_replicate_absorb (fun a p => F.fmin a (F.fin p.2.1))
        ((0 : ℚ), (0 : ℚ), (0 : ℚ)) (fun a => fmin_absorb a _) 100000 F.inf (by norm_num),
      foldl_replicate_absorb (fun a p => F.fmin a (F.fin p.2.2))
        ((0 : ℚ), (0 : ℚ), (0 : ℚ)) (fun a => fmin_absorb a _) 100000 F.inf (by norm_num),
      foldl_replicate_absorb (fun a p => F.fmax a (F.fin p.1))
        ((0 : ℚ), (0 : ℚ), (0 : ℚ)) (fun a => fmax_absorb a _) 100000 F.ninf (by norm_num),
      foldl_replicate_absorb (fun a p => F.fmax a (F.fin p.2.1))
        ((0 : ℚ), (0 : ℚ), (0 : ℚ)) (fun a => fmax_absorb a _) 100000 F.ninf (by norm_num),
      foldl_replicate_absorb (fun a p => F.fmax a (F.fin p.2.2))
        ((0 : ℚ), (0 : ℚ), (0 : ℚ)) (fun a => fmax_absorb a _) 100000 F.ninf (by norm_num)]
  norm_num [min_def, max_def]

theorem spec100000_big :
    specCenter 100000 [bigPolyline] = (F.fin 0, F.fin 0, F.fin 0) := by
  unfold specCenter
  rw [flatPoints_big,
    List.take_append_of_le_length (le_of_eq (List.length_replicate 100000 _).symm),
    List.take_replicate]
  have hmin : min 100000 100000 = 100000 := min_self _
  rw [hmin]
  unfold bboxMid bboxMin bboxMax
  rw [foldl_replicate_absorb (fun a p => F.fmin a (F.fin p.1))
        ((0 : ℚ), (0 : ℚ), (0 : ℚ)) (fun a => fmin_absorb a _) 100000 F.inf (by norm_num),
      foldl_replicate_absorb (fun a p => F.fmin a (F.fin p.2.1))
        ((0 : ℚ), (0 : ℚ), (0 : ℚ)) (fun a => fmin_absorb a _) 100000 F.inf (by norm_num),
      foldl_replicate_absorb (fun a p => F.fmin a (F.fin p.2.2))
        ((0 : ℚ), (0 : ℚ), (0 : ℚ)) (fun a => fmin_absorb a _) 100000 F.inf (by norm_num),
      foldl_replicate_absorb (fun a p => F.fmax a (F.fin p.1))
        ((0 : ℚ), (0 : ℚ), (0 : ℚ)) (fun a => fmax_absorb a _) 100000 F.ninf (by norm_num),
      foldl_replicate_absorb (fun a p => F.fmax a (F.fin p.2.1))
        ((0 : ℚ), (0 : ℚ), (0 : ℚ)) (fun a => fmax_absorb a _) 100000 F.ninf (by norm_num),
      foldl_replicate_absorb (fun a p => F.fmax a (F.fin p.2.2))
        ((0 : ℚ), (0 : ℚ), (0 : ℚ)) (fun a => fmax_absorb a _) 100000 F.ninf (by norm_num)]
  simp

/-! ## Claim C2: the sampling cap -/

/-- The points `calculate_center` actually folds into its bounding box. -/
def sampledPoints (polylines : List Polyline) : List P3 :=
  (flatPoints polylines).take 100001

/-- C2, counterexample: on a polyline holding 100000 origin points followed
by one point at `x = 1`, the center claimed by the specification (sample of
exactly the first 100000 points) is `x = 0`, but `calculate_center` still
folds in the 100001st point and returns `x = 1/2`: the claim that points
after the 100000th contribute nothing is false. -/
theorem center_cap_100000_counterexample :
    calculate_center [bigPolyline] ≠ specCenter 100000 [bigPolyline] := by
  rw [calculate_center_eq, spec100001_big, spec100000_big]
  simp

/-- C2 (amended): for every PolylineSet, `calculate_center` returns the
midpoint of the axis-aligned bounding box of the first 100001 points in
iteration order (the `count > 100000` break fires only after the 100001st
point has been processed); points after the 100001st contribute nothing. -/
theorem center_is_midpoint_of_first_100001_points (polylines : List Polyline) :
    calculate_center polylines = specCenter 100001 polylines :=
  calculate_center_eq polylines

/-! ## Claim C6: the center lies inside the sampled bounding box -/

/-- The centering result and the sampled bounding box are finite, and the
result lies within the box on every axis (inclusive). -/
def centerWithinSampleBBox (polylines : List Polyline) : Prop :=
  ∃ mnx mny mnz mxx mxy mxz cx cy cz : ℚ,
    bboxMin (sampledPoints polylines) = (F.fin mnx, F.fin mny, F.fin mnz) ∧
    bboxMax (sampledPoints polylines) = (F.fin mxx, F.fin mxy, F.fin mxz) ∧
    calculate_center polylines = (F.fin cx, F.fin cy, F.fin cz) ∧
    mnx ≤ cx ∧ cx ≤ mxx ∧ mny ≤ cy ∧ cy ≤ mxy ∧ mnz ≤ cz ∧ cz ≤ mxz

/-- C6: for every PolylineSet containing at least one point, the centering
calculator's result lies within (inclusive) the axis-aligned bounding box of
the sampled points, on every axis. -/
theorem center_within_sample_bbox (polylines : List Polyline)
    (h : flatPoints polylines ≠ []) : centerWithinSampleBBox polylines := by
  have hs : sampledPoints polylines ≠ [] := by
    intro hc
    unfold sampledPoints at hc
    have hlen := congrArg List.length hc
    rw [List.length_take] at hlen
    simp only [List.length_nil] at hlen
    have h2 : (flatPoints polylines).length = 0 := by omega
    exact h (List.eq_nil_of_length_eq_zero h2)
  obtain ⟨m1, M1, hm1, hM1, h1⟩ := bbox_bounds_x _ hs
  obtain ⟨m2, M2, hm2, hM2, h2⟩ := bbox_bounds_y _ hs
  obtain ⟨m3, M3, hm3, hM3, h3⟩ := bbox_bounds_z _ hs
  refine ⟨m1, m2, m3, M1, M2, M3,
    (m1 + M1) / 2, (m2 + M2) / 2, (m3 + M3) / 2, ?_, ?_, ?_,
    by linarith, by linarith, by linarith, by linarith, by linarith, by linarith⟩
  · rw [← hm1, ← hm2, ← hm3]
  · rw [← hM1, ← hM2, ← hM3]
  · rw [calculate_center_eq]
    show bboxMid (sampledPoints polylines) = _
    unfold bboxMid
    rw [hm1, hM1, hm2, hM2, hm3, hM3]
    simp

/-- Witness for C6 at a concrete two-point input. -/
theorem center_within_sample_bbox_witness :
    flatPoints [⟨[(1, 2, 3), (5, 6, 7)], false, none⟩] ≠ [] ∧
    centerWithinSampleBBox [⟨[(1, 2, 3), (5, 6, 7)], false, none⟩] :=
  ⟨by decide, center_within_sample_bbox _ (by decide)⟩

/-! ## Layer grouper (`import_and_process`, lines 314–319)

The Python insertion-ordered dict
`layers = {}` / `if layer not in layers: layers[layer] = []` /
`layers[layer].append(pl)` is modelled as an association list keeping keys
in insertion order. -/

/-- Insert one polyline into the accumulated layer map. -/
def insertPl (acc : List (String × List Polyline)) (pl : Polyline) :
    List (String × List Polyline) :=
  let t := layerTag pl
  if acc.any (fun g => g.1 == t) then
    acc.map (fun g => if g.1 == t then (g.1, g.2 ++ [pl]) else g)
  else acc ++ [(t, [pl])]

/-- The layer grouper: bucket the polylines by layer tag, keys in insertion
order of first occurrence. -/
def groupByLayer (polylines : List Polyline) : List (String × List Polyline) :=
  polylines.foldl insertPl []

/-- The polylines grouped under tag `t` (empty when `t` is not a key). -/
def lookupLayer (groups : List (String × List Polyline)) (t : String) :
    List Polyline :=
  match groups.find? (fun g => g.1 == t) with
  | some g => g.2
  | none => []

/-- Accumulate a tag list keeping only the first occurrence of each tag. -/
def occStep (acc : List String) (t : String) : List String :=
  if acc.any (· == t) then acc else acc ++ [t]

/-- The distinct tags of a list in order of first occurrence. -/
def firstOccs (tags : List String) : List String :=
  tags.foldl occStep []

theorem keys_any (acc : List (String × List Polyline)) (t : String) :
    (acc.map Prod.fst).any (· == t) = acc.any (fun g => g.1 == t) := by
  induction acc with
  | nil => rfl
  | cons g acc ih => simp only [List.map_cons, List.any_cons, ih]

theorem insertPl_keys (acc : List (String × List Polyline)) (pl : Polyline) :
    (insertPl acc pl).map Prod.fst = occStep (acc.map Prod.fst) (layerTag pl) := by
  simp only [insertPl, occStep]
  rw [keys_any]
  by_cases h : acc.any (fun g => g.1 == layerTag pl)
  · rw [if_pos h, if_pos h, List.map_map]
    apply List.map_congr_left
    intro g _
    by_cases hg : (g.1 == layerTag pl) = true
    · simp [Function.comp, hg]
    · simp [Function.comp, hg]
  · rw [if_neg h, if_neg h, List.map_append]
    rfl

theorem insertPl_lookup (acc : List (String × List Polyline)) (pl : Polyline)
    (t : String) :
    lookupLayer (insertPl acc pl) t =
      lookupLayer acc t ++ (if layerTag pl == t then [pl] else []) := by
  simp only [insertPl, lookupLayer]
  by_cases h : acc.any (fun g => g.1 == layerTag pl)
  · rw [if_pos h, List.find?_map]
    have hcomp : ((fun (g : String × List Polyline) => g.1 == t) ∘
          (fun (g : String × List Polyline) =>
            if g.1 == layerTag pl then (g.1, g.2 ++ [pl]) else g))
        = fun (g : String × List Polyline) => g.1 == t := by
      funext g
      by_cases hg : (g.1 == layerTag pl) = true
      · simp [Function.comp, hg]
      · simp [Function.comp, hg]
    rw [hcomp]
    by_cases hτ : (layerTag pl == t) = true
    · have hτ' : layerTag pl = t := by simpa using hτ
      cases hf : acc.find? (fun g => g.1 == t) with
      | none =>
        exfalso
        rw [List.find?_eq_none] at hf
        obtain ⟨x, hx, hp⟩ := List.any_eq_true.mp h
        rw [hτ'] at hp
        exact absurd hp (by simpa using hf x hx)
      | some g =>
        have hg1 : g.1 = t := by simpa using List.find?_some hf
        have hgeq : g.1 = layerTag pl := hg1.trans hτ'.symm
        simp [hτ, hgeq]
    · cases hf : acc.find? (fun g => g.1 == t) with
      | none =>
        simp [hτ]
      | some g =>
        have hg1 : g.1 = t := by simpa using List.find?_some hf
        have hne : layerTag pl ≠ t := by simpa using hτ
        have hgne : g.1 ≠ layerTag pl := by
          rw [hg1]
          exact fun hc => hne hc.symm
        simp [hτ, hgne]
  · rw [if_neg h, List.find?_append]
    by_cases hτ : (layerTag pl == t) = true
    · have hτ' : layerTag pl = t := by simpa using hτ
      have hf : acc.find? (fun g => g.1 == t) = none := by
        rw [List.find?_eq_none]
        intro x hx hp
        refine h (List.any_eq_true.mpr ⟨x, hx, ?_⟩)
        rw [hτ']
        exact hp
      rw [hf]
      simp [List.find?_cons, hτ]
    · cases hf : acc.find? (fun g => g.1 == t) with
      | none =>
        simp [List.find?_cons, hτ]
      | some g =>
        simp [hτ]

theorem foldl_insertPl_keys (l : List Polyline) :
    ∀ acc : List (String × List Polyline),
      (List.foldl insertPl acc l).map Prod.fst
        = List.foldl occStep (acc.map Prod.fst) (l.map layerTag) := by
  induction l with
  | nil => intro acc; rfl
  | cons pl l ih =>
    intro acc
    rw [List.foldl_cons, ih (insertPl acc pl), insertPl_keys, List.map_cons,
      List.foldl_cons]

theorem foldl_insertPl_lookup (l : List Polyline) :
    ∀ (acc : List (String × List Polyline)) (t : String),
      lookupLayer (List.foldl insertPl acc l) t
        = lookupLayer acc t ++ l.filter (fun pl => layerTag pl == t) := by
  induction l with
  | nil => intro acc t; simp
  | cons pl l ih =>
    intro acc t
    rw [List.foldl_cons, ih (insertPl acc pl) t, insertPl_lookup]
    by_cases hτ : layerTag pl == t
    · simp [hτ, List.filter_cons]
    · simp [hτ, List.filter_cons]

/-- The grouper's iteration order is first-occurrence order of the tags. -/
theorem groupByLayer_keys (polylines : List Polyline) :
    (groupByLayer polylines).map Prod.fst = firstOccs (polylines.map layerTag) := by
  unfold groupByLayer firstOccs
  rw [foldl_insertPl_keys]
  rfl

/-- Each group is exactly the order-preserving filter of its tag. -/
theorem groupByLayer_lookup (polylines : List Polyline) (t : String) :
    lookupLayer (groupByLayer polylines) t
      = polylines.filter (fun pl => layerTag pl == t) := by
  unfold groupByLayer
  rw [foldl_insertPl_lookup]
  rfl

/-- Two-point polyline on layer `"A"`. -/
def plA : Polyline :=
  ⟨[((0 : ℚ), (0 : ℚ), (0 : ℚ)), ((1 : ℚ), (0 : ℚ), (0 : ℚ))], false, some "A"⟩

/-- Two-point polyline on layer `"B"`. -/
def plB : Polyline :=
  ⟨[((2 : ℚ), (0 : ℚ), (0 : ℚ)), ((3 : ℚ), (0 : ℚ), (0 : ℚ))], false, some "B"⟩

/-- A second polyline on layer `"A"`. -/
def plA2 : Polyline :=
  ⟨[((4 : ℚ), (0 : ℚ), (0 : ℚ)), ((5 : ℚ), (0 : ℚ), (0 : ℚ))], true, some "A"⟩

/-- C7: the layer grouper partitions by exact string equality of the layer
tag (`"Default"` when absent), keeps within-group input order, iterates
groups in first-occurrence order, and on tags `["A", "B", "A"]` yields the
groups `A` (2 polylines) then `B` (1 polyline). -/
theorem layer_grouping_spec :
    (∀ polylines : List Polyline,
        (groupByLayer polylines).map Prod.fst
          = firstOccs (polylines.map layerTag)) ∧
    (∀ (polylines : List Polyline) (t : String),
        lookupLayer (groupByLayer polylines) t
          = polylines.filter (fun pl => layerTag pl == t)) ∧
    (∀ (ps : List P3) (c : Bool), layerTag ⟨ps, c, none⟩ = "Default") ∧
    groupByLayer [plA, plB, plA2] = [("A", [plA, plA2]), ("B", [plB])] :=
  ⟨groupByLayer_keys, groupByLayer_lookup, fun _ _ => rfl, by decide⟩

/-! ## Curve network builder (`create_merged_curve_from_polylines`,
lines 121–170)

One POLY spline per polyline with at least 2 points; each spline point is
`(input - center) * SCALE` per axis, and `use_cyclic_u` copies the
polyline's `closed` flag.  The function's `spline_count` return value is the
length of the spline list. -/

/-- One spline of the merged curve object. -/
structure Spline where
  points : List F3
  cyclic : Bool
deriving DecidableEq, Repr

/-- The per-point transform: centering (`p - center`) followed by the
`* SCALE` in the `co` assignment. -/
def transformPoint (center : F3) (scale : ℚ) (p : P3) : F3 :=
  (F.mulq (F.sub (F.fin p.1) center.1) scale,
   F.mulq (F.sub (F.fin p.2.1) center.2.1) scale,
   F.mulq (F.sub (F.fin p.2.2) center.2.2) scale)

/-- The function `create_merged_curve_from_polylines`:
the geometry of the produced curve object. -/
def create_merged_curve_from_polylines (polylines_data : List Polyline)
    (center : F3) (scale : ℚ) : List Spline :=
  polylines_data.filterMap fun pl =>
    if pl.points.length < 2 then none
    else some ⟨pl.points.map (transformPoint center scale), pl.closed⟩

/-- The specification's strand description: keep the polylines with at least
2 points, transform each point by `(input - center) * scale` per axis,
inherit the `closed` flag. -/
def specStrands (polylines : List Polyline) (c : P3) (scale : ℚ) : List Spline :=
  (polylines.filter (fun pl => 2 ≤ pl.points.length)).map fun pl =>
    ⟨pl.points.map (fun p =>
        (F.fin ((p.1 - c.1) * scale),
         F.fin ((p.2.1 - c.2.1) * scale),
         F.fin ((p.2.2 - c.2.2) * scale))), pl.closed⟩

theorem create_merged_eq_spec (polylines : List Polyline) (c : P3) (scale : ℚ) :
    create_merged_curve_from_polylines polylines (F.fin c.1, F.fin c.2.1, F.fin c.2.2) scale
      = specStrands polylines c scale := by
  induction polylines with
  | nil => rfl
  | cons pl pls ih =>
    by_cases h : pl.points.length < 2
    · have h2 : ¬ 2 ≤ pl.points.length := by omega
      simp only [create_merged_curve_from_polylines, specStrands,
        List.filterMap_cons, List.filter_cons] at ih ⊢
      simp [h, h2, ih]
    · have h2 : 2 ≤ pl.points.length := by omega
      simp only [create_merged_curve_from_polylines, specStrands,
        List.filterMap_cons, List.filter_cons] at ih ⊢
      simp [h, h2, ih, transformPoint]

/-- C4: for every layer group, finite center and scale, the builder produces
exactly one strand per polyline with at least 2 points (shorter polylines
are dropped), with points transformed by `(input - center) * scale` per axis
and the `closed` flag inherited; the strand count is the count of polylines
with at least 2 points. -/
theorem curve_network_strands_spec (polylines : List Polyline) (c : P3) (scale : ℚ) :
    create_merged_curve_from_polylines polylines (F.fin c.1, F.fin c.2.1, F.fin c.2.2) scale
      = specStrands polylines c scale ∧
    (create_merged_curve_from_polylines polylines
        (F.fin c.1, F.fin c.2.1, F.fin c.2.2) scale).length
      = (polylines.filter (fun pl => 2 ≤ pl.points.length)).length := by
  refine ⟨create_merged_eq_spec polylines c scale, ?_⟩
  rw [create_merged_eq_spec polylines c scale]
  unfold specStrands
  rw [List.length_map]

/-! ## Mesh pipeline and orchestrator (`import_and_process`, lines 281–405)

The mesh-editing operators live in the host application (Blender), outside
this repository; they are opaque parameters.  The embedding models the data
the script itself owns: the empty-input check, the single center
computation, the `MAX_POLYLINES` truncation, layer grouping, curve creation
(with the `MERGE_PER_LAYER` conditional exactly as written: no else branch),
and the guard around each simplification stage. -/

/-- A mesh: a vertex buffer and a triangle buffer. -/
structure Mesh where
  verts : List F3
  faces : List (ℕ × ℕ × ℕ)
deriving DecidableEq, Repr

/-- The host-application operators used by the script. -/
structure Hosts where
  curveToMesh : String → List Spline → Mesh
  removeDoubles : ℚ → Mesh → Mesh
  dissolveLimited : ℚ → Mesh → Mesh
  decimateModifier : String → ℚ → Mesh → Mesh

/-- The function `apply_decimate` (lines 224–244): the
`if ratio >= 1.0: return mesh_obj` guard around the host decimate
modifier. -/
def apply_decimate (host : String → ℚ → Mesh → Mesh) (mesh : Mesh)
    (ratio : ℚ) (decimate_type : String) : Mesh :=
  if ratio ≥ 1 then mesh else host decimate_type ratio mesh

/-- The `if MERGE_DISTANCE > 0` welding stage (lines 362–366). -/
def weldStage (host : ℚ → Mesh → Mesh) (merge_distance : ℚ)
    (meshes : List Mesh) : List Mesh :=
  if merge_distance > 0 then meshes.map (host merge_distance) else meshes

/-- The `if LIMIT_DISSOLVE_ANGLE > 0` dissolve stage (lines 369–373). -/
def dissolveStage (host : ℚ → Mesh → Mesh) (angle : ℚ)
    (meshes : List Mesh) : List Mesh :=
  if angle > 0 then meshes.map (host angle) else meshes

/-- The `if DECIMATE_RATIO < 1.0` decimate stage (lines 376–380). -/
def decimateStage (host : String → ℚ → Mesh → Mesh) (ratio : ℚ)
    (decimate_type : String) (meshes : List Mesh) : List Mesh :=
  if ratio < 1 then meshes.map (fun m => apply_decimate host m ratio decimate_type)
  else meshes

/-- The script's configuration globals. -/
structure Config where
  scale : ℚ
  maxPolylines : Option ℕ
  mergePerLayer : Bool
  convertToMesh : Bool
  mergeDistance : ℚ
  limitDissolveAngle : ℚ
  decimateRatio : ℚ
  decimateType : String

/-- The truncation `if MAX_POLYLINES: polylines = polylines[:MAX_POLYLINES]` — Python
truthiness: both `None` and `0` skip the truncation. -/
def truncatePolylines (cap : Option ℕ) (polylines : List Polyline) :
    List Polyline :=
  match cap with
  | none => polylines
  | some n => if n = 0 then polylines else polylines.take n

/-- The `if not polylines: return` early exit. -/
inductive RunError where
  | noPolylines
deriving DecidableEq, Repr

/-- What the run produces: the frozen center, the named curve objects, and
the meshes after the three simplification stages. -/
structure RunOutput where
  center : F3
  curves : List (String × List Spline)
  meshes : List Mesh

/-- The curve-creation loop (lines 329–346): per layer, a merged curve is
created only under `if MERGE_PER_LAYER:`; the loop body has no else
branch. -/
def buildCurves (mergePerLayer : Bool) (scale : ℚ) (center : F3)
    (layers : List (String × List Polyline)) : List (String × List Spline) :=
  layers.flatMap fun g =>
    if mergePerLayer then
      [(g.1, create_merged_curve_from_polylines g.2 center scale)]
    else []

/-- The orchestrator `import_and_process` after JSON loading:
empty check, one center computation, truncation, grouping, curve creation,
conversion, and the three guarded simplification stages. -/
def import_and_process (hosts : Hosts) (cfg : Config)
    (polylines : List Polyline) : Except RunError RunOutput :=
  if polylines.isEmpty then .error .noPolylines
  else
    let center := calculate_center polylines
    let pls := truncatePolylines cfg.maxPolylines polylines
    let layers := groupByLayer pls
    let curves := buildCurves cfg.mergePerLayer cfg.scale center layers
    let meshes0 :=
      if cfg.convertToMesh then curves.map (fun c => hosts.curveToMesh c.1 c.2)
      else []
    let meshes1 := weldStage hosts.removeDoubles cfg.mergeDistance meshes0
    let meshes2 := dissolveStage hosts.dissolveLimited cfg.limitDissolveAngle meshes1
    let meshes3 := decimateStage hosts.decimateModifier cfg.decimateRatio
      cfg.decimateType meshes2
    .ok ⟨center, curves, meshes3⟩

/-- Did the run exit early with an error? -/
def runAborts (hosts : Hosts) (cfg : Config) (polylines : List Polyline) : Bool :=
  match import_and_process hosts cfg polylines with
  | .error _ => true
  | .ok _ => false

/-- The curve objects a run produces (empty on abort). -/
def runCurves (hosts : Hosts) (cfg : Config) (polylines : List Polyline) :
    List (String × List Spline) :=
  match import_and_process hosts cfg polylines with
  | .ok o => o.curves
  | .error _ => []

/-- The center a run computes (NaN triple on abort, matching what
`calculate_center` itself returns on an empty list). -/
def runCenter (hosts : Hosts) (cfg : Config) (polylines : List Polyline) : F3 :=
  match import_and_process hosts cfg polylines with
  | .ok o => o.center
  | .error _ => (F.nan, F.nan, F.nan)

/-- Trivial host operators, for concrete evaluation. -/
def idHosts : Hosts :=
  ⟨fun _ _ => ⟨[], []⟩, fun _ m => m, fun _ m => m, fun _ _ m => m⟩

/-- The script's default configuration values. -/
def baseConfig : Config :=
  ⟨1, none, true, true, 1 / 1000, 872 / 10000, 1 / 2, "COLLAPSE"⟩

/-! ## Claim C1: behaviour on inputs with zero points -/

/-- A well-formed polyline entry carrying no points. -/
def noPointsPolyline : Polyline := ⟨[], false, none⟩

/-- C1, counterexample: a non-empty polyline list whose only polyline has an
empty point list passes the `if not polylines` check, so the run does not
abort; the centering stage executes on the ill-defined bounding box and its
`(inf + -inf) / 2` arithmetic yields NaN on every axis. -/
theorem empty_points_do_not_abort_counterexample :
    runAborts idHosts baseConfig [noPointsPolyline] = false ∧
    calculate_center [noPointsPolyline] = (F.nan, F.nan, F.nan) :=
  ⟨rfl, rfl⟩

theorem flatPoints_eq_nil_of_all_empty (polylines : List Polyline)
    (h : ∀ pl ∈ polylines, pl.points = []) : flatPoints polylines = [] := by
  induction polylines with
  | nil => rfl
  | cons pl pls ih =>
    have h1 : pl.points = [] := h pl (List.mem_cons_self _ _)
    have h2 : ∀ q ∈ pls, q.points = [] := fun q hq => h q (List.mem_cons_of_mem _ hq)
    have h3 : flatPoints pls = [] := ih h2
    simp only [flatPoints, List.flatMap_cons, h1, List.nil_append]
    simpa [flatPoints] using h3

theorem calculate_center_no_points (polylines : List Polyline)
    (h : flatPoints polylines = []) :
    calculate_center polylines = (F.nan, F.nan, F.nan) := by
  rw [calculate_center_eq]
  unfold specCenter
  rw [h]
  rfl

/-- C1 (amended): the run aborts before the centering stage exactly when the
polyline list itself is empty; when polylines exist but none carries a
point, the `if not polylines` check passes, the run does not abort, and the
centering calculator performs arithmetic on the ill-defined bounding box,
returning NaN on every axis. -/
theorem abort_iff_no_polylines (hosts : Hosts) (cfg : Config)
    (polylines : List Polyline) :
    (runAborts hosts cfg polylines = true ↔ polylines = []) ∧
    (polylines ≠ [] → (∀ pl ∈ polylines, pl.points = []) →
      runAborts hosts cfg polylines = false ∧
      calculate_center polylines = (F.nan, F.nan, F.nan)) := by
  have habort : runAborts hosts cfg polylines = true ↔ polylines = [] := by
    unfold runAborts import_and_process
    cases h : polylines.isEmpty with
    | false =>
      have hne : polylines ≠ [] := by
        intro hc
        rw [hc] at h
        exact absurd h (by decide)
      simp [hne]
    | true =>
      have hnil : polylines = [] := List.isEmpty_iff.mp h
      simp [hnil]
  refine ⟨habort, fun hne hall =>
    ⟨?_, calculate_center_no_points polylines
          (flatPoints_eq_nil_of_all_empty polylines hall)⟩⟩
  rcases Bool.eq_false_or_eq_true (runAborts hosts cfg polylines) with hb | hb
  · exact absurd (habort.mp hb) hne
  · exact hb

/-- Witness for C1 (amended) at the empty list and at a one-polyline list
with no points. -/
theorem abort_iff_no_polylines_witness :
    (runAborts idHosts baseConfig ([] : List Polyline) = true) ∧
    (runAborts idHosts baseConfig [noPointsPolyline] = false ∧
      calculate_center [noPointsPolyline] = (F.nan, F.nan, F.nan)) :=
  ⟨(abort_iff_no_polylines idHosts baseConfig []).1.mpr rfl,
   (abort_iff_no_polylines idHosts baseConfig [noPointsPolyline]).2
     (by decide) (by decide)⟩

/-! ## Claim C3: the disabled-merge mode -/

/-- A two-point polyline on layer `"L"`. -/
def demo2pt : Polyline :=
  ⟨[((0 : ℚ), (0 : ℚ), (0 : ℚ)), ((1 : ℚ), (1 : ℚ), (1 : ℚ))], false, some "L"⟩

/-- C3: with the merge-per-layer toggle disabled the curve-creation loop has
no else branch, so the run produces no curve objects at all for a non-empty
input — contradicting both the claim and the script's own log line
("OFF - 1 object per polyline"). -/
theorem merge_disabled_produces_no_objects :
    runCurves idHosts { baseConfig with mergePerLayer := false } [demo2pt] = [] ∧
    ([demo2pt] : List Polyline) ≠ [] :=
  ⟨rfl, List.cons_ne_nil _ _⟩

/-! ## Claim C5: decimation at ratio 1 -/

/-- C5: `apply_decimate` with ratio 1 returns the mesh unchanged (the
`if ratio >= 1.0` guard), and the orchestrator's `if DECIMATE_RATIO < 1.0`
guard skips the whole stage, so vertex and face counts are untouched. -/
theorem decimate_ratio_one_noop :
    (∀ (host : String → ℚ → Mesh → Mesh) (m : Mesh) (dtype : String),
        apply_decimate host m 1 dtype = m ∧
        (apply_decimate host m 1 dtype).verts.length = m.verts.length ∧
        (apply_decimate host m 1 dtype).faces.length = m.faces.length) ∧
    (∀ (host : String → ℚ → Mesh → Mesh) (dtype : String) (meshes : List Mesh),
        decimateStage host 1 dtype meshes = meshes) := by
  constructor
  · intro host m dtype
    have h : apply_decimate host m 1 dtype = m := by simp [apply_decimate]
    exact ⟨h, by rw [h], by rw [h]⟩
  · intro host dtype meshes
    simp [decimateStage]

/-! ## Claim C9: welding at distance 0 -/

/-- C9: with `weld_distance = 0` the `if MERGE_DISTANCE > 0` guard skips the
welding stage entirely, so every mesh (and its vertex and face counts) is
left unchanged. -/
theorem weld_distance_zero_noop :
    ∀ (host : ℚ → Mesh → Mesh) (meshes : List Mesh),
      weldStage host 0 meshes = meshes := by
  intro host meshes
  simp [weldStage]

/-! ## Claim C8: the frozen center -/

/-- C8: the curve objects of every run are built from the single center
`calculate_center polylines`, computed once from the full (untruncated)
input before the per-layer loop, and that same value is passed to every
layer; no stage recomputes it. -/
theorem center_frozen_across_layers (hosts : Hosts) (cfg : Config)
    (polylines : List Polyline) :
    runCurves hosts cfg polylines
      = buildCurves cfg.mergePerLayer cfg.scale (calculate_center polylines)
          (groupByLayer (truncatePolylines cfg.maxPolylines polylines)) := by
  unfold runCurves import_and_process
  cases h : polylines.isEmpty with
  | true =>
    have hnil : polylines = [] := List.isEmpty_iff.mp h
    subst hnil
    rcases hcap : cfg.maxPolylines with _ | n
    · simp [truncatePolylines, groupByLayer, buildCurves]
    · unfold truncatePolylines
      split_ifs <;> simp [groupByLayer, buildCurves]
  | false => rfl

/-! ## Claim C10: the `MAX_POLYLINES` cap -/

/-- C10: the cap is applied only after the center is computed — the run's
center is always `calculate_center` of the full polyline list, for every cap
value — and a cap of 0 is falsy in Python, so it disables truncation
entirely rather than selecting zero polylines. -/
theorem cap_applied_after_centering :
    (∀ (hosts : Hosts) (cfg : Config) (polylines : List Polyline),
        runCenter hosts cfg polylines = calculate_center polylines) ∧
    (∀ polylines : List Polyline,
        truncatePolylines (some 0) polylines = polylines) ∧
    (∀ (hosts : Hosts) (cfg : Config) (polylines : List Polyline),
        import_and_process hosts { cfg with maxPolylines := some 0 } polylines
          = import_and_process hosts { cfg with maxPolylines := none } polylines) := by
  refine ⟨?_, ?_, ?_⟩
  · intro hosts cfg polylines
    unfold runCenter import_and_process
    cases h : polylines.isEmpty with
    | true =>
      have hnil : polylines = [] := List.isEmpty_iff.mp h
      subst hnil
      rfl
    | false => rfl
  · intro polylines
    rfl
  · intro hosts cfg polylines
    rfl

end DXF2GLB
